import Mathlib

/-!
Shallow embedding of the change-detection core of the `de-extinction`
repository (`src/wayback_scraper.py`): the snapshot sampler
(`WaybackCollector.sample_snapshots`), the whitespace normalizer
(`_normalize_whitespace`), the shingle-based textual distance
(`cosine_distance`), the change-magnitude scoring
(`DiffAnalyzer._calculate_change_magnitude`, `_categorize_change_magnitude`),
the per-slug pairwise comparison (`DiffAnalyzer._pairwise`) and the
rolling-mean time-series step of `DiffAnalyzer.run`.

Python floats are modelled by exact rationals (`ℚ`), Python strings by
Lean `String`/`List Char` (ASCII-faithful: the repository's own marker
strings and keyword phrases are ASCII), and pandas DataFrame rows by
structures.  Fallible constructs do not occur on the modelled paths.
-/

namespace Wayback

/-- Split a character list at `'\n'` (the result always has one more part
than there are newlines). -/
def splitNL : List Char → List (List Char)
  | [] => [[]]
  | c :: cs =>
    if c = '\n' then [] :: splitNL cs
    else (c :: (splitNL cs).headD []) :: (splitNL cs).tail

/-- Python `str.splitlines()` for texts whose only line break is `'\n'`
(the texts compared by the analyzer are produced by `_normalize_whitespace`,
which emits only `'\n'` breaks): `""` gives `[]`, a trailing newline does
not create a final empty line. -/
def pySplitlines (s : String) : List String :=
  if s.data = [] then []
  else
    let parts := (splitNL s.data).map String.mk
    if s.data.getLast? = some '\n' then parts.dropLast else parts

/-- Python `str.startswith(pre)`, modelled on the character list. -/
def pyStartsWith (s pre : String) : Bool :=
  pre.data.isPrefixOf s.data

/-- Python whitespace class `\s` (ASCII range), as used by `re.sub(r"\s+", " ", ...)`
inside `cosine_distance.shingles`. -/
def isPySpace (c : Char) : Bool :=
  c = ' ' || c = '\t' || c = '\n' || c = '\r' || c = Char.ofNat 11 || c = Char.ofNat 12

/-- Collapse every run of `\s` characters to a single space:
`re.sub(r"\s+", " ", s)` (from `cosine_distance.shingles`). -/
def collapseSpaceRuns : List Char → List Char
  | [] => []
  | c :: cs =>
    if isPySpace c then
      match cs with
      | [] => [' ']
      | d :: _ => if isPySpace d then collapseSpaceRuns cs else ' ' :: collapseSpaceRuns cs
    else c :: collapseSpaceRuns cs

/-- All overlapping 3-character windows of a character list
(`[s[i:i+n] for i in range(max(len(s)-n+1, 0))]` with `n = 3`; ℕ-subtraction
provides the clamp at 0). -/
def windows3 (l : List Char) : List (List Char) :=
  (List.range (l.length - 2)).map (fun i => (l.drop i).take 3)

/-- The 3-gram shingle list of `cosine_distance.shingles`: lower-case the
text, collapse whitespace runs, take all overlapping 3-character substrings. -/
def shingles (s : String) : List (List Char) :=
  windows3 (collapseSpaceRuns (s.data.map Char.toLower))

/-- The shingle set of a text (`set(shingles(s))` in the source). -/
def shingleSet (s : String) : Finset (List Char) :=
  (shingles s).toFinset

/-- `cosine_distance(a, b)` from `src/wayback_scraper.py`: 1 minus the
Jaccard similarity of the two 3-gram shingle sets, with the source's two
empty-input guards. -/
def cosine_distance (a b : String) : ℚ :=
  if shingles a = [] ∧ shingles b = [] then 0
  else if shingleSet a = ∅ ∧ shingleSet b = ∅ then 0
  else 1 - (if 0 < (shingleSet a ∪ shingleSet b).card
            then ((shingleSet a ∩ shingleSet b).card : ℚ) /
                 ((shingleSet a ∪ shingleSet b).card : ℚ)
            else 0)

/-- Round-half-to-even of a rational to an integer (the tie-breaking rule of
Python's `round`). -/
def halfEvenRound (q : ℚ) : ℤ :=
  let f : ℚ := q - ⌊q⌋
  if f < 1/2 then ⌊q⌋
  else if 1/2 < f then ⌊q⌋ + 1
  else if Even ⌊q⌋ then ⌊q⌋ else ⌊q⌋ + 1

/-- `round(x, 4)` modelled in exact rational arithmetic (round half to even
at the fourth decimal place). -/
def round4 (q : ℚ) : ℚ :=
  (halfEvenRound (q * 10000) : ℚ) / 10000

/-- `DiffAnalyzer._categorize_change_magnitude`. -/
def categorize_change_magnitude (magnitude : ℚ) : String :=
  if magnitude ≥ 8/10 then "Major"
  else if magnitude ≥ 6/10 then "Substantial"
  else if magnitude ≥ 4/10 then "Moderate"
  else if magnitude ≥ 2/10 then "Minor"
  else "Minimal"

/-- Sub-score 1 of `_calculate_change_magnitude`:
`similarity_score = 1.0 - cosine_distance(A_clean, B_clean)`. -/
def similarity_sub (A B : String) : ℚ :=
  1 - cosine_distance A B

/-- Sub-score 2 of `_calculate_change_magnitude`: character-change ratio
`min(abs(len_b - len_a) / avg_len, 1.0)` with `avg_len = (len_a+len_b)/2`
when positive, else `1`. -/
def char_ratio_sub (A B : String) : ℚ :=
  let la : ℕ := A.length
  let lb : ℕ := B.length
  let avg : ℚ := if 0 < la + lb then ((la : ℚ) + lb) / 2 else 1
  min (|(lb : ℚ) - (la : ℚ)| / avg) 1

/-- Number of diff lines counted by the density sub-score:
`sum(1 for line in diff_lines if line.startswith(("+", "-")))`.
Note this counts the `---`/`+++` file-header lines of a unified diff too. -/
def countPlusMinus (ls : List String) : ℕ :=
  (ls.filter (fun l => pyStartsWith l "+" || pyStartsWith l "-")).length

/-- Sub-score 3 of `_calculate_change_magnitude`: diff line density
`min(diff_change_lines / max(total_lines, 1), 1.0)`. -/
def diff_density_sub (A B : String) (diff_lines : List String) : ℚ :=
  let total : ℕ := (pySplitlines A).length + (pySplitlines B).length
  min ((countPlusMinus diff_lines : ℚ) / (max total 1 : ℕ)) 1

/-- Total keyword change used by sub-score 4:
`sum(abs(v) for v in kw_delta.values())`. -/
def kwTotal (kw : List (String × ℤ)) : ℕ :=
  (kw.map (fun p => p.2.natAbs)).sum

/-- Sub-score 4 of `_calculate_change_magnitude`: keyword change intensity
`min(total / (total + 10), 1.0)`. -/
def kw_intensity_sub (kw : List (String × ℤ)) : ℚ :=
  min ((kwTotal kw : ℚ) / ((kwTotal kw : ℚ) + 10)) 1

/-- Additions counted by sub-score 5: lines starting with `+` but not `+++`. -/
def countAdditions (ls : List String) : ℕ :=
  (ls.filter (fun l => pyStartsWith l "+" && !pyStartsWith l "+++")).length

/-- Deletions counted by sub-score 5: lines starting with `-` but not `---`. -/
def countDeletions (ls : List String) : ℕ :=
  (ls.filter (fun l => pyStartsWith l "-" && !pyStartsWith l "---")).length

/-- Sub-score 5 of `_calculate_change_magnitude`: structural change score
`min((additions + deletions) / max(lines_A, lines_B, 1), 1.0)`. -/
def structural_sub (A B : String) (diff_lines : List String) : ℚ :=
  let denom : ℕ := max (pySplitlines A).length (max (pySplitlines B).length 1)
  min (((countAdditions diff_lines + countDeletions diff_lines : ℕ) : ℚ) / (denom : ℚ)) 1

/-- The combined magnitude of `_calculate_change_magnitude`, before rounding:
`0.3·similarity + 0.2·char_ratio + 0.25·diff_density + 0.15·kw_intensity
 + 0.1·structural`. -/
def combined_magnitude (A B : String) (diff_lines : List String)
    (kw : List (String × ℤ)) : ℚ :=
  similarity_sub A B * (3/10)
    + char_ratio_sub A B * (2/10)
    + diff_density_sub A B diff_lines * (25/100)
    + kw_intensity_sub kw * (15/100)
    + structural_sub A B diff_lines * (1/10)

/-- The record returned by `_calculate_change_magnitude`: the five sub-scores
and the combined magnitude rounded to four decimals, and the category label
computed from the unrounded combined magnitude. -/
structure Magnitude where
  similarity_score : ℚ
  char_change_ratio : ℚ
  diff_density : ℚ
  keyword_intensity : ℚ
  structural_score : ℚ
  magnitude_score : ℚ
  change_category : String
  deriving Repr, DecidableEq, Inhabited

/-- `DiffAnalyzer._calculate_change_magnitude(A_clean, B_clean, diff_lines,
kw_delta)`. -/
def calculate_change_magnitude (A B : String) (diff_lines : List String)
    (kw : List (String × ℤ)) : Magnitude :=
  { similarity_score := round4 (similarity_sub A B)
    char_change_ratio := round4 (char_ratio_sub A B)
    diff_density := round4 (diff_density_sub A B diff_lines)
    keyword_intensity := round4 (kw_intensity_sub kw)
    structural_score := round4 (structural_sub A B diff_lines)
    magnitude_score := round4 (combined_magnitude A B diff_lines kw)
    change_category := categorize_change_magnitude (combined_magnitude A B diff_lines kw) }

/-- Python `int(...)` on the digit substrings of a well-formed
`YYYYMMDDHHMMSS` timestamp (total on all character lists; the theorems about
the sampler restrict to digit timestamps, where this coincides with `int`). -/
def natOfDigits (cs : List Char) : ℕ :=
  cs.foldl (fun acc c => acc * 10 + (c.toNat - 48)) 0

/-- `int(ts[:4])` — the year of a timestamp. -/
def yearNat (ts : String) : ℕ :=
  natOfDigits (ts.data.take 4)

/-- `int(ts[4:6])` — the month of a timestamp. -/
def monthNat (ts : String) : ℕ :=
  natOfDigits ((ts.data.drop 4).take 2)

/-- `(m - 1) // 3 + 1` of `quarter_key` — the quarter of a timestamp
(for months 1..12, where Python's and ℕ's subtraction/division agree). -/
def quarterNum (ts : String) : ℕ :=
  (monthNat ts - 1) / 3 + 1

/-- The `chosen` dict of `sample_snapshots`, as the sublist of first
occurrences: iterate the listing and keep an entry iff its key was not seen
before (Python: `if key not in chosen: chosen[key] = entry`). -/
def firstOccur {α κ : Type} [DecidableEq κ] (k : α → κ) : List α → List α
  | [] => []
  | x :: xs => x :: (firstOccur k xs).filter (fun y => decide (k y ≠ k x))

/-- The tuple comparison `(int(x[0][:4]), quarter) ≤ ...` used by the
quarterly branch's `sorted(..., key=sort_key)`. -/
def quarterLe (a b : String × String) : Prop :=
  yearNat a.1 < yearNat b.1 ∨ (yearNat a.1 = yearNat b.1 ∧ quarterNum a.1 ≤ quarterNum b.1)

instance : DecidableRel quarterLe := fun _ _ => by
  unfold quarterLe; infer_instance

instance : IsTotal (String × String) quarterLe :=
  ⟨by intro a b; unfold quarterLe; omega⟩

instance : IsTrans (String × String) quarterLe :=
  ⟨by intro a b c hab hbc; unfold quarterLe at *; omega⟩

/-- `WaybackCollector.sample_snapshots(snaps, mode)`.

The source accumulates one entry per bucket key in a dict (keeping the first
occurrence) and emits the values by ascending key:
* `yearly` keys on `ts[:4]` and emits `[chosen[y] for y in sorted(chosen)]`;
  since every stored entry's `ts[:4]` equals its own dict key and keys are
  distinct, this equals sorting the first occurrences by `ts[:4]`;
* `quarterly` keys on `quarter_key(ts) = f"{year}-Q{quarter}"`, which is
  injective in the pair `(year, quarter)`, modelled by keying on that pair
  directly; values are emitted via `sorted(..., key=(year, quarter))`;
* `monthly` is `yearly` with `ts[:6]`;
* any other mode returns the input unchanged. -/
def sample_snapshots (snaps : List (String × String)) (mode : String) :
    List (String × String) :=
  if mode = "all" then snaps
  else if mode = "yearly" then
    List.insertionSort (fun a b => a.1.take 4 ≤ b.1.take 4)
      (firstOccur (fun p => p.1.take 4) snaps)
  else if mode = "quarterly" then
    List.insertionSort quarterLe
      (firstOccur (fun p => (yearNat p.1, quarterNum p.1)) snaps)
  else if mode = "monthly" then
    List.insertionSort (fun a b => a.1.take 6 ≤ b.1.take 6)
      (firstOccur (fun p => p.1.take 6) snaps)
  else snaps

/-- Horizontal whitespace, the class `[ \t]` of `_normalize_whitespace`. -/
def isHT (c : Char) : Bool :=
  c = ' ' || c = '\t'

/-- `re.sub(r"[ \t]+", " ", text)`: collapse every run of horizontal
whitespace to one space. -/
def collapseHTRuns : List Char → List Char
  | [] => []
  | c :: cs =>
    if isHT c then
      match cs with
      | [] => [' ']
      | d :: _ => if isHT d then collapseHTRuns cs else ' ' :: collapseHTRuns cs
    else c :: collapseHTRuns cs

/-- `re.sub(r"\n{3,}", "\n\n", text)`: every maximal run of three or more
newlines becomes exactly two; shorter runs are kept.  Fuel-based recursion;
the wrapper supplies `fuel = length`, which always suffices since each step
consumes at least one character. -/
def collapseNLRunsF : ℕ → List Char → List Char
  | 0, l => l
  | _ + 1, [] => []
  | fuel + 1, c :: cs =>
    if c = '\n' then
      let run := cs.takeWhile (fun d => d == '\n')
      let rest := cs.dropWhile (fun d => d == '\n')
      (if 3 ≤ run.length + 1 then ['\n', '\n'] else List.replicate (run.length + 1) '\n')
        ++ collapseNLRunsF fuel rest
    else c :: collapseNLRunsF fuel cs

/-- `re.sub(r" *\n *", "\n", text)`: leftmost non-overlapping matches of
"spaces, newline, spaces" are each replaced by a bare newline; at a position
where spaces are not followed by a newline the scan advances one character
(no match is possible anywhere inside that space run).  Fuel-based as above. -/
def trimAroundNLF : ℕ → List Char → List Char
  | 0, l => l
  | _ + 1, [] => []
  | fuel + 1, c :: cs =>
    if c = '\n' then '\n' :: trimAroundNLF fuel (cs.dropWhile (fun d => d == ' '))
    else if c = ' ' then
      match cs.dropWhile (fun d => d == ' ') with
      | '\n' :: r2 => '\n' :: trimAroundNLF fuel (r2.dropWhile (fun d => d == ' '))
      | _ => c :: trimAroundNLF fuel cs
    else c :: trimAroundNLF fuel cs

/-- Python `str.strip()`: drop whitespace from both ends. -/
def pyStrip (l : List Char) : List Char :=
  ((l.dropWhile isPySpace).reverse.dropWhile isPySpace).reverse

/-- `_normalize_whitespace(text)` from `src/wayback_scraper.py`: the three
regex substitutions in source order, then `strip()`. -/
def normalize_whitespace (s : String) : String :=
  let l1 := collapseHTRuns s.data
  let l2 := collapseNLRunsF l1.length l1
  let l3 := trimAroundNLF l2.length l2
  String.mk (pyStrip l3)

/-- Regex word character `\w` (ASCII range, as in the repository's
keyword phrases). -/
def isWordChar (c : Char) : Bool :=
  c.isAlphanum || c = '_'

/-- Word-ness of an optional character; positions outside the string count
as non-word. -/
def wordnessO : Option Char → Bool
  | none => false
  | some c => isWordChar c

/-- The `\b` assertion between two adjacent positions: word-ness differs. -/
def boundaryB (a b : Option Char) : Bool :=
  wordnessO a != wordnessO b

/-- Scan counting the non-overlapping matches of `re.findall(r"\b" +
re.escape(p) + r"\b", t)` for a non-empty literal phrase `p`: at each
position, match iff `p` is a prefix and both ends sit on a `\b` boundary;
on a match the scan jumps past the phrase, else it advances one character.
Fuel-based; the wrapper supplies `fuel = length of t`, which suffices since
each step consumes at least one character. -/
def countOccF (p : List Char) : ℕ → Option Char → List Char → ℕ
  | 0, _, _ => 0
  | _ + 1, _, [] => 0
  | fuel + 1, prev, c :: rest =>
    if p ≠ [] ∧ p.isPrefixOf (c :: rest)
        ∧ boundaryB prev (some c)
        ∧ boundaryB ((c :: rest).drop (p.length - 1)).head? ((c :: rest).drop p.length).head?
    then 1 + countOccF p fuel ((c :: rest).drop (p.length - 1)).head? ((c :: rest).drop p.length)
    else countOccF p fuel (some c) rest

/-- Number of `\b`-delimited occurrences of the literal phrase `p` in `t`. -/
def countOccurrences (p t : List Char) : ℕ :=
  if p = [] then 0 else countOccF p t.length none t

/-- `DiffAnalyzer._keyword_counts(text)`: per category, the total number of
boundary-matched occurrences of that category's phrases in the lower-cased
text.  The keyword registry (`self.keywords`, by default the module-level
`KEYWORDS` literal) is passed as a parameter. -/
def keyword_counts (registry : List (String × List String)) (text : String) :
    List (String × ℤ) :=
  let tl := text.data.map Char.toLower
  registry.map fun bw =>
    (bw.1, ((bw.2.map fun w => countOccurrences (w.data.map Char.toLower) tl).sum : ℤ))

/-- The delta dict `{k: kwB[k] - kwA[k] for k in kwA}`. -/
def kwDelta (kwA kwB : List (String × ℤ)) : List (String × ℤ) :=
  kwA.map fun pa => (pa.1, ((kwB.lookup pa.1).getD 0) - pa.2)

/-- The `tagline_changes` count of `DiffAnalyzer._compare_taglines`: over
the union of keys, count keys removed (truthy in A only), added (truthy in
B only), or changed; the accompanying human-readable details string is
presentation only and is not modelled. -/
def tagline_changes (ta tb : List (String × String)) : ℕ :=
  if ta = [] ∧ tb = [] then 0
  else
    ((ta.map Prod.fst ++ tb.map Prod.fst).dedup.map fun k =>
      let va := (ta.lookup k).getD ""
      let vb := (tb.lookup k).getD ""
      if va ≠ "" ∧ vb = "" then 1
      else if va = "" ∧ vb ≠ "" then 1
      else if va ≠ vb then 1
      else (0 : ℕ)).sum

/-- One row of the snapshot index consumed by `DiffAnalyzer._pairwise`.
`text` holds the content of the row's `text_path` file (the analyzer reads
it back via `_load_text`); `dt_local` is carried opaquely into diff records.
The sort column `dt_utc = pd.to_datetime(timestamp, format="%Y%m%d%H%M%S")`
is order-isomorphic to the fixed-width `timestamp` string, so sorting is
modelled on `timestamp`. -/
structure Snap where
  path : String
  slug : String
  timestamp : String
  archive_url : String
  dt_local : String
  text : String
  taglines : List (String × String)
  deriving Repr, DecidableEq

/-- The `[SOURCE]`-line stripping of `_pairwise`:
`"\n".join(line for line in text.splitlines() if not line.startswith("[SOURCE]"))`. -/
def clean_text (s : String) : String :=
  String.intercalate "\n" ((pySplitlines s).filter (fun l => !pyStartsWith l "[SOURCE]"))

/-- The meaningful-diff filter of `_pairwise`: keep header/hunk/context
lines; keep an added/removed line only if its content, stripped, is non-empty
and longer than 5 characters. -/
def keepDiffLine (l : String) : Bool :=
  if pyStartsWith l "---" || pyStartsWith l "+++" || pyStartsWith l "@@" || pyStartsWith l " " then
    true
  else if pyStartsWith l "+" || pyStartsWith l "-" then
    let stripped := (l.drop 1).trim
    !stripped.isEmpty && decide (5 < stripped.length)
  else false

/-- A diff record as assembled by `_pairwise` (the magnitude metrics dict is
kept as a nested field rather than splatted into the row). -/
structure DiffRec where
  path : String
  slug : String
  from_ts : String
  to_ts : String
  from_url : String
  to_url : String
  from_local : String
  to_local : String
  cosine_distance : ℚ
  from_chars : ℕ
  to_chars : ℕ
  char_change : ℤ
  kw_delta : List (String × ℤ)
  diff_snippet : String
  metrics : Magnitude
  tagline_changes : ℕ
  deriving Repr, DecidableEq, Inhabited

/-- The type of `difflib.unified_diff(a_lines, b_lines, fromfile, tofile,
n=3)`, an external library call kept as a parameter of the model. -/
abbrev UDiff :=
  List String → List String → String → String → List String

/-- The loop body of `_pairwise` for one adjacent pair `(a, b)`. -/
def mkDiff (udiff : UDiff) (registry : List (String × List String))
    (a b : Snap) : DiffRec :=
  let A := clean_text a.text
  let B := clean_text b.text
  let dist := cosine_distance A B
  let kd := kwDelta (keyword_counts registry A) (keyword_counts registry B)
  let dls := udiff (pySplitlines A) (pySplitlines B)
    (a.slug ++ "@" ++ a.timestamp) (b.slug ++ "@" ++ b.timestamp)
  { path := a.path
    slug := a.slug
    from_ts := a.timestamp
    to_ts := b.timestamp
    from_url := a.archive_url
    to_url := b.archive_url
    from_local := a.dt_local
    to_local := b.dt_local
    cosine_distance := round4 dist
    from_chars := A.length
    to_chars := B.length
    char_change := (B.length : ℤ) - (A.length : ℤ)
    kw_delta := kd
    diff_snippet := String.intercalate "\n" ((dls.filter keepDiffLine).take 300)
    metrics := calculate_change_magnitude A B dls kd
    tagline_changes := tagline_changes a.taglines b.taglines }

/-- The loop `for i in range(1, len(g))` of `_pairwise`: one record per
adjacent pair of the (already sorted) sequence. -/
def pairRecs (udiff : UDiff) (registry : List (String × List String)) :
    List Snap → List DiffRec
  | a :: rest@(b :: _) => mkDiff udiff registry a b :: pairRecs udiff registry rest
  | _ => []

/-- `DiffAnalyzer._pairwise(group)`: sort the slug's snapshots
chronologically, then one diff record per adjacent pair. -/
def analyzer_pairwise (udiff : UDiff) (registry : List (String × List String))
    (group : List Snap) : List DiffRec :=
  pairRecs udiff registry
    (List.insertionSort (fun x y => x.timestamp ≤ y.timestamp) group)

/-- Mean of a list of rationals (`0` on the empty list, which the rolling
window never produces). -/
def listMean (l : List ℚ) : ℚ :=
  l.sum / l.length

/-- Streaming form of `pandas.Series.rolling(window=3, min_periods=1).mean()`:
`w` carries the up-to-two previous values; each output is the mean of the
window ending at the current element. -/
def roll3 (w : List ℚ) : List ℚ → List ℚ
  | [] => []
  | x :: xs =>
    let w' := w ++ [x]
    listMean w' :: roll3 (w'.drop (w'.length - 2)) xs

/-- `rolling(window=3, min_periods=1).mean()` over a column. -/
def rolling3 (l : List ℚ) : List ℚ :=
  roll3 [] l

/-- The significant-change subset of `DiffAnalyzer.run`:
`diffs_df[diffs_df["cosine_distance"] >= self.significant_change]` (on the
rounded stored distance). -/
def significantChanges (thr : ℚ) (diffs : List DiffRec) : List DiffRec :=
  diffs.filter (fun d => decide (thr ≤ d.cosine_distance))

/-- `magnitude_df.sort_values("date")` of `DiffAnalyzer.run`: the whole
significant-change subset — all slugs together — sorted by the date parsed
from `from_ts` (order-isomorphic to the `from_ts` string on the fixed-width
timestamp format). -/
def sortedChanges (thr : ℚ) (diffs : List DiffRec) : List DiffRec :=
  List.insertionSort (fun x y => x.from_ts ≤ y.from_ts) (significantChanges thr diffs)

/-- The magnitude time-series step of `DiffAnalyzer.run`: attach to the
globally sorted significant changes the 3-window rolling mean of
`magnitude_score` computed over that single global ordering. -/
def magnitudeRolling (thr : ℚ) (diffs : List DiffRec) : List (DiffRec × ℚ) :=
  (sortedChanges thr diffs).zip
    (rolling3 ((sortedChanges thr diffs).map (fun d => d.metrics.magnitude_score)))

/-! ### Claim-side definitions

The following definitions formalize wording of the specification's claims,
to be compared against the source-derived definitions above. -/

/-- Claim C2's diff-density formula: added plus removed lines of the
unfiltered diff — explicitly excluding the `---`/`+++` file-header lines —
divided by the total line count of the two texts, clamped to 1. -/
def claimDiffDensity (A B : String) (diff_lines : List String) : ℚ :=
  min (((countAdditions diff_lines + countDeletions diff_lines : ℕ) : ℚ) /
    (((pySplitlines A).length + (pySplitlines B).length : ℕ) : ℚ)) 1

/-- Lines of a unified diff starting with `---` or `+++` (the file-header
lines; every such line also starts with `-` or `+`). -/
def countHeaderPM (ls : List String) : ℕ :=
  (ls.filter (fun l => pyStartsWith l "---" || pyStartsWith l "+++")).length

/-- The last at most three elements of a list. -/
def lastUpTo3 (l : List ℚ) : List ℚ :=
  l.drop (l.length - 3)

/-- Claim C3's description of the rolling mean: for the `i`-th significant
change of the chronologically sorted subset, the mean of the magnitude
scores of the up-to-3 most recent significant changes **of that record's
slug** at or before it. -/
def perSlugRolling (thr : ℚ) (diffs : List DiffRec) : List (DiffRec × ℚ) :=
  (sortedChanges thr diffs).zip
    ((List.range (sortedChanges thr diffs).length).map (fun i =>
      let d := ((sortedChanges thr diffs).drop i).headD default
      listMean (lastUpTo3 ((((sortedChanges thr diffs).take (i + 1)).filter
        (fun e => e.slug == d.slug)).map (fun e => e.metrics.magnitude_score)))))

/-- Well-formed archive timestamp: 14 digits, month between 01 and 12
(the format `YYYYMMDDHHMMSS` of the data model). -/
def tsWFb (ts : String) : Bool :=
  ts.length == 14 && ts.data.all Char.isDigit
    && decide (1 ≤ monthNat ts) && decide (monthNat ts ≤ 12)

/-- "Same time bucket" for a sampling mode (claim C4's bucket relation):
first 4 digits / year+quarter / first 6 digits. -/
def sameBucketB (mode : String) (a b : String) : Bool :=
  if mode = "yearly" then a.take 4 == b.take 4
  else if mode = "quarterly" then yearNat a == yearNat b && quarterNum a == quarterNum b
  else if mode = "monthly" then a.take 6 == b.take 6
  else false

/-- Strict chronological order on time buckets for a sampling mode. -/
def bucketLtB (mode : String) (a b : String) : Bool :=
  if mode = "yearly" then decide (a.take 4 < b.take 4)
  else if mode = "quarterly" then
    decide (yearNat a < yearNat b) || (yearNat a == yearNat b && decide (quarterNum a < quarterNum b))
  else if mode = "monthly" then decide (a.take 6 < b.take 6)
  else false

/-! ### Concrete data for counterexamples -/

/-- `difflib.unified_diff("a\nb\nc\nd".splitlines(), "a\nb\nc\ne".splitlines(),
fromfile="home@20200101000000", tofile="home@20200102000000", n=3)`, as the
library produces it (the two file-header lines and the hunk header carry the
default line terminator `"\n"`; content lines do not, since the inputs come
from `splitlines()`). -/
def exUnifiedDiff : List String :=
  ["--- home@20200101000000\n", "+++ home@20200102000000\n",
   "@@ -1,4 +1,4 @@\n", " a", " b", " c", "-d", "+e"]

/-- A significant-change record of slug `a` at the earlier date, with
magnitude score 0 (only the fields read by the time-series step matter). -/
def exD1 : DiffRec :=
  { path := "/a", slug := "a", from_ts := "20200101000000", to_ts := "20200601000000",
    from_url := "", to_url := "", from_local := "", to_local := "",
    cosine_distance := 1, from_chars := 0, to_chars := 0, char_change := 0,
    kw_delta := [], diff_snippet := "",
    metrics := { similarity_score := 0, char_change_ratio := 0, diff_density := 0,
                 keyword_intensity := 0, structural_score := 0,
                 magnitude_score := 0, change_category := "Minimal" },
    tagline_changes := 0 }

/-- A significant-change record of the distinct slug `b` at the later date,
with magnitude score 1. -/
def exD2 : DiffRec :=
  { path := "/b", slug := "b", from_ts := "20200102000000", to_ts := "20200701000000",
    from_url := "", to_url := "", from_local := "", to_local := "",
    cosine_distance := 1, from_chars := 0, to_chars := 0, char_change := 0,
    kw_delta := [], diff_snippet := "",
    metrics := { similarity_score := 0, char_change_ratio := 0, diff_density := 0,
                 keyword_intensity := 0, structural_score := 0,
                 magnitude_score := 1, change_category := "Major" },
    tagline_changes := 0 }

/-! ## Helper lemmas -/

theorem cosine_bounds (a b : String) :
    0 ≤ cosine_distance a b ∧ cosine_distance a b ≤ 1 := by
  unfold cosine_distance
  split_ifs with h1 h2 hu
  · norm_num
  · norm_num
  · have hle : ((shingleSet a ∩ shingleSet b).card : ℚ)
        ≤ ((shingleSet a ∪ shingleSet b).card : ℚ) := by
      exact_mod_cast Finset.card_le_card Finset.inter_subset_union
    have hpos : (0:ℚ) < ((shingleSet a ∪ shingleSet b).card : ℚ) := by exact_mod_cast hu
    have h01 : ((shingleSet a ∩ shingleSet b).card : ℚ)
        / ((shingleSet a ∪ shingleSet b).card : ℚ) ≤ 1 := by
      rw [div_le_one hpos]; exact hle
    have h00 : 0 ≤ ((shingleSet a ∩ shingleSet b).card : ℚ)
        / ((shingleSet a ∪ shingleSet b).card : ℚ) := by positivity
    constructor <;> linarith
  · norm_num

theorem cosine_symm (a b : String) : cosine_distance a b = cosine_distance b a := by
  unfold cosine_distance
  rw [Finset.inter_comm, Finset.union_comm]
  split_ifs <;> first | rfl | tauto

theorem cosine_self (a : String) : cosine_distance a a = 0 := by
  unfold cosine_distance
  split_ifs with h1 h2 hu
  · rfl
  · rfl
  · rw [Finset.inter_self, Finset.union_self] at *
    rw [div_self (by exact_mod_cast hu.ne' : ((shingleSet a).card:ℚ) ≠ 0)]
    norm_num
  · exfalso
    apply hu
    rw [Finset.union_self]
    rcases not_and_or.mp h1 with h | h <;>
    · refine Finset.card_pos.mpr ?_
      rw [shingleSet, List.toFinset_nonempty_iff]
      simpa using h

theorem cosine_disjoint (a b : String) (hd : shingleSet a ∩ shingleSet b = ∅)
    (hne : ¬(shingles a = [] ∧ shingles b = [])) : cosine_distance a b = 1 := by
  have h2 : ¬(shingleSet a = ∅ ∧ shingleSet b = ∅) := by
    intro hc
    refine hne ⟨?_, ?_⟩
    · simpa [shingleSet, List.toFinset_eq_empty_iff] using hc.1
    · simpa [shingleSet, List.toFinset_eq_empty_iff] using hc.2
  have hu : 0 < (shingleSet a ∪ shingleSet b).card := by
    refine Finset.card_pos.mpr ?_
    rcases not_and_or.mp hne with h | h
    · obtain ⟨x, hx⟩ : (shingleSet a).Nonempty := by
        rw [shingleSet, List.toFinset_nonempty_iff]; simpa using h
      exact ⟨x, Finset.mem_union_left _ hx⟩
    · obtain ⟨x, hx⟩ : (shingleSet b).Nonempty := by
        rw [shingleSet, List.toFinset_nonempty_iff]; simpa using h
      exact ⟨x, Finset.mem_union_right _ hx⟩
  unfold cosine_distance
  rw [if_neg hne, if_neg h2, if_pos hu, hd]
  simp

theorem halfEvenRound_intCast (n : ℤ) : halfEvenRound (n : ℚ) = n := by
  unfold halfEvenRound
  rw [Int.floor_intCast, sub_self]
  norm_num

theorem round4_of_mul_eq (q : ℚ) (n : ℤ) (h : q * 10000 = (n : ℚ)) : round4 q = q := by
  unfold round4
  rw [h, halfEvenRound_intCast, ← h,
    mul_div_cancel_right₀ q (by norm_num : (10000:ℚ) ≠ 0)]

/-! ## Claim theorems -/

/-- C7: the textual distance is symmetric, zero on identical inputs, bounded
in `[0, 1]`, and zero on the empty-vs-empty pair. -/
theorem claim_C7_distance_properties :
    (∀ a b : String, cosine_distance a b = cosine_distance b a) ∧
    (∀ a : String, cosine_distance a a = 0) ∧
    (∀ a b : String, 0 ≤ cosine_distance a b ∧ cosine_distance a b ≤ 1) ∧
    cosine_distance "" "" = 0 :=
  ⟨cosine_symm, cosine_self, cosine_bounds, cosine_self ""⟩

/-- C10: `sample_snapshots` on a mode outside {all, yearly, quarterly,
monthly} falls through every branch and returns the listing unchanged. -/
theorem claim_C10_unknown_mode (snaps : List (String × String)) (mode : String)
    (h1 : mode ≠ "all") (h2 : mode ≠ "yearly") (h3 : mode ≠ "quarterly")
    (h4 : mode ≠ "monthly") : sample_snapshots snaps mode = snaps := by
  unfold sample_snapshots
  rw [if_neg h1, if_neg h2, if_neg h3, if_neg h4]

theorem claim_C10_witness :
    sample_snapshots [("20200101000000", "u")] "weekly" = [("20200101000000", "u")] :=
  claim_C10_unknown_mode _ _ (by decide) (by decide) (by decide) (by decide)

/-- C5 (code bug): on `"a\n \n \n \nb"` the space-trimming substitution runs
after the newline-run collapse and manufactures a run of four consecutive
line breaks, so the output is not free of three-or-more consecutive line
breaks as the specification requires. -/
theorem claim_C5_normalize_bug :
    normalize_whitespace "a\n \n \n \nb" = "a\n\n\n\nb" ∧
    ['\n', '\n', '\n'] <:+: (normalize_whitespace "a\n \n \n \nb").data := by
  exact ⟨by decide, by decide⟩

theorem char_ratio_self (A : String) : char_ratio_sub A A = 0 := by
  unfold char_ratio_sub
  simp

theorem diff_density_empty (A B : String) : diff_density_sub A B [] = 0 := by
  unfold diff_density_sub countPlusMinus
  simp

theorem kw_intensity_zero (kw : List (String × ℤ)) (h : kwTotal kw = 0) :
    kw_intensity_sub kw = 0 := by
  unfold kw_intensity_sub
  rw [h]
  norm_num

theorem structural_empty (A B : String) : structural_sub A B [] = 0 := by
  unfold structural_sub countAdditions countDeletions
  simp

theorem similarity_self (A : String) : similarity_sub A A = 1 := by
  unfold similarity_sub
  rw [cosine_self]
  norm_num

theorem combined_self_empty (A : String) (kw : List (String × ℤ))
    (h : kwTotal kw = 0) : combined_magnitude A A [] kw = 3/10 := by
  unfold combined_magnitude
  rw [similarity_self, char_ratio_self, diff_density_empty, structural_empty,
    kw_intensity_zero _ h]
  norm_num

theorem calc_self_empty (A : String) (kw : List (String × ℤ)) (h : kwTotal kw = 0) :
    (calculate_change_magnitude A A [] kw).magnitude_score = 3/10 ∧
    (calculate_change_magnitude A A [] kw).change_category = "Minor" := by
  constructor
  · show round4 (combined_magnitude A A [] kw) = 3/10
    rw [combined_self_empty A kw h]
    exact round4_of_mul_eq _ 3000 (by norm_num)
  · show categorize_change_magnitude (combined_magnitude A A [] kw) = "Minor"
    rw [combined_self_empty A kw h]
    unfold categorize_change_magnitude
    norm_num

theorem similarity_disjoint (B C : String)
    (hd : shingleSet B ∩ shingleSet C = ∅)
    (hne : ¬(shingles B = [] ∧ shingles C = [])) : similarity_sub B C = 0 := by
  unfold similarity_sub
  rw [cosine_disjoint B C hd hne]
  norm_num

/-- C1 (amended): a pair of identical cleaned texts — hence zero character
difference, empty unified diff — with zero keyword deltas yields combined
magnitude score 0.3 and category "Minor" (not 0 and "Minimal": the first
sub-score is the similarity `1 − distance`, which is 1 for identical texts
and enters with weight 0.3); and a pair whose 3-character shingle sets are
disjoint and not both empty has similarity sub-score `1 − distance = 0`
(not 1). -/
theorem claim_C1_magnitude_smoke (A B C : String) (ls ls2 : List String)
    (kw kw2 : List (String × ℤ)) (hls : ls = []) (hkw : kwTotal kw = 0)
    (hdisj : shingleSet B ∩ shingleSet C = ∅)
    (hne : ¬(shingles B = [] ∧ shingles C = [])) :
    (calculate_change_magnitude A A ls kw).magnitude_score = 3/10 ∧
    (calculate_change_magnitude A A ls kw).change_category = "Minor" ∧
    similarity_sub B C = 0 ∧
    (calculate_change_magnitude B C ls2 kw2).similarity_score = 0 := by
  subst hls
  obtain ⟨hm, hc⟩ := calc_self_empty A kw hkw
  refine ⟨hm, hc, similarity_disjoint B C hdisj hne, ?_⟩
  show round4 (similarity_sub B C) = 0
  rw [similarity_disjoint B C hdisj hne]
  exact round4_of_mul_eq _ 0 (by norm_num)

theorem claim_C1_witness :
    ([] : List String) = [] ∧ kwTotal [] = 0 ∧
    shingleSet "aaa" ∩ shingleSet "bbb" = ∅ ∧
    ¬(shingles "aaa" = [] ∧ shingles "bbb" = []) ∧
    ((calculate_change_magnitude "x" "x" [] []).magnitude_score = 3/10 ∧
     (calculate_change_magnitude "x" "x" [] []).change_category = "Minor" ∧
     similarity_sub "aaa" "bbb" = 0 ∧
     (calculate_change_magnitude "aaa" "bbb" [] []).similarity_score = 0) :=
  ⟨rfl, rfl, by decide, by decide,
    claim_C1_magnitude_smoke "x" "aaa" "bbb" [] [] [] [] rfl rfl (by decide) (by decide)⟩

/-- C1 fails as stated: the identical pair `("x", "x")` with empty diff and
zero keyword deltas has magnitude score 0.3 ≠ 0 and category "Minor" ≠
"Minimal", and the disjoint-shingle pair `("aaa", "bbb")` has similarity
sub-score 0 ≠ 1. -/
theorem claim_C1_counterexample :
    (calculate_change_magnitude "x" "x" [] []).magnitude_score ≠ 0 ∧
    (calculate_change_magnitude "x" "x" [] []).change_category ≠ "Minimal" ∧
    similarity_sub "aaa" "bbb" ≠ 1 := by
  obtain ⟨hm, hc⟩ := calc_self_empty "x" [] rfl
  refine ⟨by rw [hm]; norm_num, by rw [hc]; decide, ?_⟩
  rw [similarity_disjoint "aaa" "bbb" (by decide) (by decide)]
  norm_num

theorem pyStartsWith_trans3plus (l : String) (h : pyStartsWith l "+++" = true) :
    pyStartsWith l "+" = true := by
  unfold pyStartsWith at *
  rw [List.isPrefixOf_iff_prefix] at *
  exact (by decide : "+".data <+: "+++".data).trans h

theorem pyStartsWith_trans3minus (l : String) (h : pyStartsWith l "---" = true) :
    pyStartsWith l "-" = true := by
  unfold pyStartsWith at *
  rw [List.isPrefixOf_iff_prefix] at *
  exact (by decide : "-".data <+: "---".data).trans h

theorem pyStartsWith_not_both (l : String) :
    ¬(pyStartsWith l "+" = true ∧ pyStartsWith l "-" = true) := by
  unfold pyStartsWith
  rw [List.isPrefixOf_iff_prefix, List.isPrefixOf_iff_prefix]
  rintro ⟨⟨t1, h1⟩, ⟨t2, h2⟩⟩
  rw [← h1] at h2
  have hplus : "+".data = ['+'] := rfl
  have hminus : "-".data = ['-'] := rfl
  rw [hplus, hminus] at h2
  simp at h2

/-- The density numerator of the source counts every line starting with `+`
or `-`; these split exactly into the claim's added lines (`+` but not `+++`),
removed lines (`-` but not `---`), and the file-header lines. -/
theorem countPM_split (ls : List String) :
    countPlusMinus ls = countAdditions ls + countDeletions ls + countHeaderPM ls := by
  induction ls with
  | nil => rfl
  | cons l t ih =>
    unfold countPlusMinus countAdditions countDeletions countHeaderPM at ih ⊢
    rw [List.filter_cons, List.filter_cons, List.filter_cons, List.filter_cons]
    by_cases h3p : pyStartsWith l "+++" = true
    · have hp := pyStartsWith_trans3plus l h3p
      have hm : pyStartsWith l "-" = false := by
        cases hmc : pyStartsWith l "-"
        · rfl
        · exact absurd ⟨hp, hmc⟩ (pyStartsWith_not_both l)
      have h3m : pyStartsWith l "---" = false := by
        cases hc : pyStartsWith l "---"
        · rfl
        · rw [pyStartsWith_trans3minus l hc] at hm
          exact Bool.noConfusion hm
      simp [hp, hm, h3p, h3m]
      omega
    · rw [Bool.not_eq_true] at h3p
      by_cases h3m : pyStartsWith l "---" = true
      · have hm := pyStartsWith_trans3minus l h3m
        have hp : pyStartsWith l "+" = false := by
          cases hpc : pyStartsWith l "+"
          · rfl
          · exact absurd ⟨hpc, hm⟩ (pyStartsWith_not_both l)
        simp [hp, hm, h3p, h3m]
        omega
      · rw [Bool.not_eq_true] at h3m
        by_cases hp : pyStartsWith l "+" = true
        · have hm : pyStartsWith l "-" = false := by
            cases hmc : pyStartsWith l "-"
            · rfl
            · exact absurd ⟨hp, hmc⟩ (pyStartsWith_not_both l)
          simp [hp, hm, h3p, h3m]
          omega
        · rw [Bool.not_eq_true] at hp
          by_cases hm : pyStartsWith l "-" = true
          · simp [hp, hm, h3p, h3m]
            omega
          · rw [Bool.not_eq_true] at hm
            simp [hp, hm, h3p, h3m]
            omega

/-- C2 (amended): the diff-density sub-score equals (added lines + removed
lines + the `---`/`+++` file-header lines of the unfiltered diff) divided by
`max(total line count of A plus B, 1)`, clamped to 1 — the source's numerator
`line.startswith(("+", "-"))` also counts the two file-header lines, and the
denominator is floored at 1. -/
theorem claim_C2_density (A B : String) (ls : List String) :
    diff_density_sub A B ls =
      min (((countAdditions ls + countDeletions ls + countHeaderPM ls : ℕ) : ℚ) /
        ((max ((pySplitlines A).length + (pySplitlines B).length) 1 : ℕ) : ℚ)) 1 := by
  simp only [diff_density_sub]
  rw [countPM_split]

/-- C2 fails as stated: for the one-line change `"a\nb\nc\nd"` →
`"a\nb\nc\ne"`, whose unfiltered unified diff has 1 added and 1 removed line
plus the two file-header lines, the source computes density `4/8 = 1/2`
while the claim's formula gives `2/8 = 1/4`. -/
theorem claim_C2_counterexample :
    (calculate_change_magnitude "a\nb\nc\nd" "a\nb\nc\ne" exUnifiedDiff []).diff_density
      ≠ claimDiffDensity "a\nb\nc\nd" "a\nb\nc\ne" exUnifiedDiff := by
  have h1 : countPlusMinus exUnifiedDiff = 4 := by decide
  have h2 : countAdditions exUnifiedDiff = 1 := by decide
  have h3 : countDeletions exUnifiedDiff = 1 := by decide
  have h4 : (pySplitlines "a\nb\nc\nd").length = 4 := by decide
  have h5 : (pySplitlines "a\nb\nc\ne").length = 4 := by decide
  have hd : diff_density_sub "a\nb\nc\nd" "a\nb\nc\ne" exUnifiedDiff = 1/2 := by
    simp only [diff_density_sub, h1, h4, h5]
    norm_num
  have hlhs : (calculate_change_magnitude "a\nb\nc\nd" "a\nb\nc\ne"
      exUnifiedDiff []).diff_density = 1/2 := by
    show round4 (diff_density_sub "a\nb\nc\nd" "a\nb\nc\ne" exUnifiedDiff) = 1/2
    rw [hd]
    exact round4_of_mul_eq _ 5000 (by norm_num)
  have hrhs : claimDiffDensity "a\nb\nc\nd" "a\nb\nc\ne" exUnifiedDiff = 1/4 := by
    simp only [claimDiffDensity, h2, h3, h4, h5]
    norm_num
  rw [hlhs, hrhs]
  norm_num

theorem min_one_bounds (x : ℚ) (hx : 0 ≤ x) : 0 ≤ min x 1 ∧ min x 1 ≤ 1 :=
  ⟨le_min hx (by norm_num), min_le_right _ _⟩

theorem similarity_bounds (A B : String) :
    0 ≤ similarity_sub A B ∧ similarity_sub A B ≤ 1 := by
  obtain ⟨h0, h1⟩ := cosine_bounds A B
  unfold similarity_sub
  constructor <;> linarith

theorem char_ratio_bounds (A B : String) :
    0 ≤ char_ratio_sub A B ∧ char_ratio_sub A B ≤ 1 := by
  simp only [char_ratio_sub]
  refine min_one_bounds _ (div_nonneg (abs_nonneg _) ?_)
  split_ifs with h
  · positivity
  · norm_num

theorem diff_density_bounds (A B : String) (ls : List String) :
    0 ≤ diff_density_sub A B ls ∧ diff_density_sub A B ls ≤ 1 := by
  simp only [diff_density_sub]
  exact min_one_bounds _ (div_nonneg (Nat.cast_nonneg _) (Nat.cast_nonneg _))

theorem structural_bounds (A B : String) (ls : List String) :
    0 ≤ structural_sub A B ls ∧ structural_sub A B ls ≤ 1 := by
  simp only [structural_sub]
  exact min_one_bounds _ (div_nonneg (Nat.cast_nonneg _) (Nat.cast_nonneg _))

theorem kw_intensity_eq (kw : List (String × ℤ)) :
    kw_intensity_sub kw = (kwTotal kw : ℚ) / ((kwTotal kw : ℚ) + 10) ∧
    kw_intensity_sub kw < 1 := by
  have hk : (0:ℚ) ≤ (kwTotal kw : ℚ) := Nat.cast_nonneg _
  have hlt : (kwTotal kw : ℚ) / ((kwTotal kw : ℚ) + 10) < 1 := by
    rw [div_lt_one (by linarith)]
    linarith
  refine ⟨?_, ?_⟩
  · simp only [kw_intensity_sub]
    exact min_eq_left (le_of_lt hlt)
  · simp only [kw_intensity_sub]
    rw [min_eq_left (le_of_lt hlt)]
    exact hlt

/-- C9: the keyword intensity is the soft-saturating ratio `k/(k+10) < 1`,
the other four sub-scores lie in `[0, 1]`, and since the weights
`0.3+0.2+0.25+0.15+0.1` sum to 1 the combined magnitude is strictly below 1. -/
theorem claim_C9_magnitude_lt_one (A B : String) (ls : List String)
    (kw : List (String × ℤ)) :
    kw_intensity_sub kw = (kwTotal kw : ℚ) / ((kwTotal kw : ℚ) + 10) ∧
    kw_intensity_sub kw < 1 ∧
    (0 ≤ similarity_sub A B ∧ similarity_sub A B ≤ 1) ∧
    (0 ≤ char_ratio_sub A B ∧ char_ratio_sub A B ≤ 1) ∧
    (0 ≤ diff_density_sub A B ls ∧ diff_density_sub A B ls ≤ 1) ∧
    (0 ≤ structural_sub A B ls ∧ structural_sub A B ls ≤ 1) ∧
    combined_magnitude A B ls kw < 1 := by
  obtain ⟨hke, hkl⟩ := kw_intensity_eq kw
  obtain ⟨hs0, hs1⟩ := similarity_bounds A B
  obtain ⟨hc0, hc1⟩ := char_ratio_bounds A B
  obtain ⟨hd0, hd1⟩ := diff_density_bounds A B ls
  obtain ⟨ht0, ht1⟩ := structural_bounds A B ls
  have hk0 : 0 ≤ kw_intensity_sub kw := by
    rw [hke]
    positivity
  refine ⟨hke, hkl, ⟨hs0, hs1⟩, ⟨hc0, hc1⟩, ⟨hd0, hd1⟩, ⟨ht0, ht1⟩, ?_⟩
  unfold combined_magnitude
  linarith

theorem pairRecs_eq_zip (u : UDiff) (r : List (String × List String)) :
    ∀ l : List Snap, pairRecs u r l = (l.zip l.tail).map (fun p => mkDiff u r p.1 p.2)
  | [] => by simp [pairRecs]
  | [a] => by simp [pairRecs]
  | a :: b :: t => by
    rw [pairRecs, pairRecs_eq_zip u r (b :: t)]
    simp

theorem pairRecs_length (u : UDiff) (r : List (String × List String)) :
    ∀ l : List Snap, (pairRecs u r l).length = l.length - 1
  | [] => by simp [pairRecs]
  | [a] => by simp [pairRecs]
  | a :: b :: t => by
    have ih := pairRecs_length u r (b :: t)
    rw [pairRecs]
    simp only [List.length_cons] at ih ⊢
    omega

/-- C8: the pairwise comparison of a slug's group sorts it chronologically
and emits exactly one diff record per adjacent pair of the sorted sequence —
`n` snapshots yield `n − 1` records (0 for `n ≤ 1` by ℕ-subtraction). -/
theorem claim_C8_pair_count (udiff : UDiff) (registry : List (String × List String))
    (grp : List Snap) :
    (analyzer_pairwise udiff registry grp).length = grp.length - 1 ∧
    analyzer_pairwise udiff registry grp =
      ((List.insertionSort (fun x y => x.timestamp ≤ y.timestamp) grp).zip
        (List.insertionSort (fun x y => x.timestamp ≤ y.timestamp) grp).tail).map
        (fun p => mkDiff udiff registry p.1 p.2) := by
  constructor
  · rw [analyzer_pairwise, pairRecs_length, List.length_insertionSort]
  · rw [analyzer_pairwise, pairRecs_eq_zip]

theorem firstOccur_subset {α κ : Type} [DecidableEq κ] (k : α → κ) :
    ∀ l : List α, ∀ y ∈ firstOccur k l, y ∈ l
  | [], y, hy => absurd hy (by simp [firstOccur])
  | x :: xs, y, hy => by
    rw [firstOccur] at hy
    rcases List.mem_cons.mp hy with rfl | hy'
    · exact List.mem_cons_self _ _
    · exact List.mem_cons_of_mem _
        (firstOccur_subset k xs y (List.mem_of_mem_filter hy'))

theorem firstOccur_keys_nodup {α κ : Type} [DecidableEq κ] (k : α → κ) :
    ∀ l : List α, ((firstOccur k l).map k).Nodup
  | [] => by simp [firstOccur]
  | x :: xs => by
    rw [firstOccur, List.map_cons, List.nodup_cons]
    constructor
    · intro hmem
      obtain ⟨y, hy, hky⟩ := List.mem_map.mp hmem
      have hne := List.of_mem_filter hy
      simp only [decide_eq_true_eq] at hne
      exact hne hky
    · exact List.Nodup.sublist ((List.filter_sublist _).map k)
        (firstOccur_keys_nodup k xs)

theorem firstOccur_covers {α κ : Type} [DecidableEq κ] (k : α → κ) :
    ∀ l : List α, ∀ x ∈ l, ∃ y ∈ firstOccur k l, k y = k x
  | [], x, hx => absurd hx (List.not_mem_nil x)
  | x0 :: xs, x, hx => by
    rw [firstOccur]
    rcases List.mem_cons.mp hx with h0 | hx'
    · exact ⟨x0, List.mem_cons_self _ _, by rw [h0]⟩
    · obtain ⟨y, hy, hky⟩ := firstOccur_covers k xs x hx'
      by_cases hkx : k y = k x0
      · exact ⟨x0, List.mem_cons_self _ _, hkx.symm.trans hky⟩
      · refine ⟨y, List.mem_cons_of_mem _ (List.mem_filter.mpr ⟨hy, ?_⟩), hky⟩
        simpa using hkx

theorem firstOccur_find? {α κ : Type} [DecidableEq κ] (k : α → κ) (pr : α → Bool) :
    ∀ (l : List α) (y : α), y ∈ firstOccur k l → (∀ z, pr z = true ↔ k z = k y) →
      l.find? pr = some y
  | [], y, hy, _ => absurd hy (by simp [firstOccur])
  | x :: xs, y, hy, hpr => by
    rw [firstOccur] at hy
    rcases List.mem_cons.mp hy with rfl | hy'
    · have hx : pr y = true := (hpr y).mpr rfl
      simp [List.find?, hx]
    · have hne : k y ≠ k x := by
        have := List.of_mem_filter hy'
        simpa using this
      have hx : pr x = false := by
        cases hpx : pr x
        · rfl
        · exact absurd ((hpr x).mp hpx).symm hne
      simp only [List.find?, hx]
      exact firstOccur_find? k pr xs y (List.mem_of_mem_filter hy') hpr

theorem firstOccur_of_nodup_keys {α κ : Type} [DecidableEq κ] (k : α → κ) :
    ∀ l : List α, (l.map k).Nodup → firstOccur k l = l
  | [], _ => rfl
  | x :: xs, h => by
    rw [List.map_cons, List.nodup_cons] at h
    rw [firstOccur, firstOccur_of_nodup_keys k xs h.2]
    congr 1
    rw [List.filter_eq_self]
    intro y hy
    simp only [decide_eq_true_eq]
    intro hc
    exact h.1 (hc ▸ List.mem_map_of_mem k hy)

theorem find?_min_of_sorted (pr : (String × String) → Bool) :
    ∀ (l : List (String × String)) (q : String × String),
      (l.map Prod.fst).Sorted (· ≤ ·) → l.find? pr = some q →
      ∀ x ∈ l, pr x = true → q.1 ≤ x.1
  | [], q, _, hf => by simp [List.find?] at hf
  | a :: t, q, hs, hf => by
    rw [List.map_cons, List.sorted_cons] at hs
    intro x hx hpx
    cases hpa : pr a
    · have hf' : t.find? pr = some q := by simpa [List.find?, hpa] using hf
      rcases List.mem_cons.mp hx with rfl | hx'
      · rw [hpa] at hpx
        exact Bool.noConfusion hpx
      · exact find?_min_of_sorted pr t q hs.2 hf' x hx' hpx
    · have hq : a = q := by simpa [List.find?, hpa] using hf
      rcases List.mem_cons.mp hx with rfl | hx'
      · rw [← hq]
      · rw [← hq]
        exact hs.1 x.1 (List.mem_map_of_mem Prod.fst hx')

theorem sortFirstOccur_idem {κ : Type} [DecidableEq κ]
    (k : (String × String) → κ) (r : (String × String) → (String × String) → Prop)
    [DecidableRel r] [IsTotal _ r] [IsTrans _ r] (l : List (String × String)) :
    List.insertionSort r (firstOccur k (List.insertionSort r (firstOccur k l)))
      = List.insertionSort r (firstOccur k l) := by
  have hnd : ((List.insertionSort r (firstOccur k l)).map k).Nodup :=
    (((List.perm_insertionSort r (firstOccur k l)).map k)).nodup_iff.mpr
      (firstOccur_keys_nodup k l)
  rw [firstOccur_of_nodup_keys k _ hnd]
  exact List.Sorted.insertionSort_eq (List.sorted_insertionSort r _)

/-- C6: re-sampling an already-sampled listing with the same mode returns it
unchanged, for each of the four modes. -/
theorem claim_C6_idempotent :
    (∀ l, sample_snapshots (sample_snapshots l "all") "all" = sample_snapshots l "all") ∧
    (∀ l, sample_snapshots (sample_snapshots l "yearly") "yearly"
        = sample_snapshots l "yearly") ∧
    (∀ l, sample_snapshots (sample_snapshots l "quarterly") "quarterly"
        = sample_snapshots l "quarterly") ∧
    (∀ l, sample_snapshots (sample_snapshots l "monthly") "monthly"
        = sample_snapshots l "monthly") := by
  have hball : ∀ m : List (String × String), sample_snapshots m "all" = m := by
    intro m
    simp [sample_snapshots]
  have hby : ∀ m : List (String × String), sample_snapshots m "yearly"
      = List.insertionSort (fun a b => a.1.take 4 ≤ b.1.take 4)
          (firstOccur (fun p => p.1.take 4) m) := by
    intro m
    simp [sample_snapshots]
  have hbq : ∀ m : List (String × String), sample_snapshots m "quarterly"
      = List.insertionSort quarterLe
          (firstOccur (fun p => (yearNat p.1, quarterNum p.1)) m) := by
    intro m
    simp [sample_snapshots]
  have hbm : ∀ m : List (String × String), sample_snapshots m "monthly"
      = List.insertionSort (fun a b => a.1.take 6 ≤ b.1.take 6)
          (firstOccur (fun p => p.1.take 6) m) := by
    intro m
    simp [sample_snapshots]
  refine ⟨fun l => by rw [hball, hball], fun l => ?_, fun l => ?_, fun l => ?_⟩
  · rw [hby, hby]
    haveI : IsTotal (String × String) (fun a b => a.1.take 4 ≤ b.1.take 4) :=
      ⟨fun a b => le_total _ _⟩
    haveI : IsTrans (String × String) (fun a b => a.1.take 4 ≤ b.1.take 4) :=
      ⟨fun _ _ _ hab hbc => le_trans hab hbc⟩
    exact sortFirstOccur_idem _ _ l
  · rw [hbq, hbq]
    exact sortFirstOccur_idem _ _ l
  · rw [hbm, hbm]
    haveI : IsTotal (String × String) (fun a b => a.1.take 6 ≤ b.1.take 6) :=
      ⟨fun a b => le_total _ _⟩
    haveI : IsTrans (String × String) (fun a b => a.1.take 6 ≤ b.1.take 6) :=
      ⟨fun _ _ _ hab hbc => le_trans hab hbc⟩
    exact sortFirstOccur_idem _ _ l

theorem sampler_branch_props {κ : Type} [DecidableEq κ]
    (k : (String × String) → κ) (r : (String × String) → (String × String) → Prop)
    [DecidableRel r] [IsTotal _ r] [IsTrans _ r] (l : List (String × String)) :
    (∀ q ∈ List.insertionSort r (firstOccur k l), q ∈ l) ∧
    (∀ p ∈ l, ∃ q ∈ List.insertionSort r (firstOccur k l), k q = k p) ∧
    (∀ q ∈ List.insertionSort r (firstOccur k l), ∀ pr : (String × String) → Bool,
        (∀ z, pr z = true ↔ k z = k q) → l.find? pr = some q) ∧
    List.Pairwise (fun p q => r p q ∧ k p ≠ k q)
      (List.insertionSort r (firstOccur k l)) ∧
    ((l.map Prod.fst).Sorted (· ≤ ·) →
        ∀ q ∈ List.insertionSort r (firstOccur k l), ∀ pr : (String × String) → Bool,
          (∀ z, pr z = true ↔ k z = k q) → ∀ p ∈ l, pr p = true → q.1 ≤ p.1) := by
  have hmem : ∀ q, q ∈ List.insertionSort r (firstOccur k l) ↔ q ∈ firstOccur k l :=
    fun q => List.mem_insertionSort r
  refine ⟨?_, ?_, ?_, ?_, ?_⟩
  · intro q hq
    exact firstOccur_subset k l q ((hmem q).mp hq)
  · intro p hp
    obtain ⟨y, hy, hky⟩ := firstOccur_covers k l p hp
    exact ⟨y, (hmem y).mpr hy, hky⟩
  · intro q hq pr hpr
    exact firstOccur_find? k pr l q ((hmem q).mp hq) hpr
  · have hs : List.Pairwise r (List.insertionSort r (firstOccur k l)) :=
      List.sorted_insertionSort r _
    have hnd : ((List.insertionSort r (firstOccur k l)).map k).Nodup :=
      ((List.perm_insertionSort r (firstOccur k l)).map k).nodup_iff.mpr
        (firstOccur_keys_nodup k l)
    exact hs.and (List.pairwise_map.mp hnd)
  · intro hsort q hq pr hpr p hp hpp
    have hf : l.find? pr = some q :=
      firstOccur_find? k pr l q ((hmem q).mp hq) hpr
    exact find?_min_of_sorted pr l q hsort hf p hp hpp

theorem sameB_yearly (a b : String) :
    sameBucketB "yearly" a b = true ↔ a.take 4 = b.take 4 := by
  simp [sameBucketB]

theorem sameB_quarterly (a b : String) :
    sameBucketB "quarterly" a b = true ↔
      (yearNat a, quarterNum a) = (yearNat b, quarterNum b) := by
  simp [sameBucketB, Prod.ext_iff]

theorem sameB_monthly (a b : String) :
    sameBucketB "monthly" a b = true ↔ a.take 6 = b.take 6 := by
  simp [sameBucketB]

theorem bucketLt_yearly (a b : String) :
    bucketLtB "yearly" a b = true ↔ a.take 4 < b.take 4 := by
  simp [bucketLtB]

theorem bucketLt_quarterly (a b : String) :
    bucketLtB "quarterly" a b = true ↔
      (yearNat a < yearNat b ∨ (yearNat a = yearNat b ∧ quarterNum a < quarterNum b)) := by
  simp [bucketLtB]

theorem bucketLt_monthly (a b : String) :
    bucketLtB "monthly" a b = true ↔ a.take 6 < b.take 6 := by
  simp [bucketLtB]

/-- C4 (amended): for the three bucketing modes, on well-formed timestamps
the sampler returns a sublist of the input with exactly one entry per
non-empty bucket, each returned entry being the **first entry of its bucket
in input order** (hence, when the listing is chronologically ordered, the
one with the lexicographically smallest timestamp — but not for unordered
input), emitted in strictly ascending bucket order; empty input yields
empty output. -/
theorem claim_C4_sampler (snaps : List (String × String)) (mode : String)
    (hmode : mode = "yearly" ∨ mode = "quarterly" ∨ mode = "monthly")
    (hwf : ∀ p ∈ snaps, tsWFb p.1 = true) :
    (∀ q ∈ sample_snapshots snaps mode, q ∈ snaps) ∧
    (∀ p ∈ snaps, ∃ q ∈ sample_snapshots snaps mode,
        sameBucketB mode q.1 p.1 = true) ∧
    (∀ q ∈ sample_snapshots snaps mode,
        snaps.find? (fun p => sameBucketB mode p.1 q.1) = some q) ∧
    List.Pairwise (fun p q => bucketLtB mode p.1 q.1 = true)
      (sample_snapshots snaps mode) ∧
    ((snaps.map Prod.fst).Sorted (· ≤ ·) →
        ∀ q ∈ sample_snapshots snaps mode, ∀ p ∈ snaps,
          sameBucketB mode p.1 q.1 = true → q.1 ≤ p.1) ∧
    (snaps = [] → sample_snapshots snaps mode = []) := by
  clear hwf
  rcases hmode with rfl | rfl | rfl
  · have hb : sample_snapshots snaps "yearly"
        = List.insertionSort (fun a b => a.1.take 4 ≤ b.1.take 4)
            (firstOccur (fun p => p.1.take 4) snaps) := by
      simp [sample_snapshots]
    haveI : IsTotal (String × String) (fun a b => a.1.take 4 ≤ b.1.take 4) :=
      ⟨fun a b => le_total _ _⟩
    haveI : IsTrans (String × String) (fun a b => a.1.take 4 ≤ b.1.take 4) :=
      ⟨fun _ _ _ hab hbc => le_trans hab hbc⟩
    obtain ⟨h1, h2, h3, h4, h5⟩ :=
      sampler_branch_props (fun p => p.1.take 4) (fun a b => a.1.take 4 ≤ b.1.take 4) snaps
    rw [hb]
    refine ⟨h1, ?_, ?_, ?_, ?_, ?_⟩
    · intro p hp
      obtain ⟨q, hq, hk⟩ := h2 p hp
      exact ⟨q, hq, (sameB_yearly _ _).mpr hk⟩
    · intro q hq
      exact h3 q hq _ (fun z => sameB_yearly z.1 q.1)
    · exact h4.imp (fun hpq => (bucketLt_yearly _ _).mpr (lt_of_le_of_ne hpq.1 hpq.2))
    · intro hsort q hq p hp hpq
      exact h5 hsort q hq _ (fun z => sameB_yearly z.1 q.1) p hp hpq
    · rintro rfl
      simp [firstOccur]
  · have hb : sample_snapshots snaps "quarterly"
        = List.insertionSort quarterLe
            (firstOccur (fun p => (yearNat p.1, quarterNum p.1)) snaps) := by
      simp [sample_snapshots]
    obtain ⟨h1, h2, h3, h4, h5⟩ :=
      sampler_branch_props (fun p => (yearNat p.1, quarterNum p.1)) quarterLe snaps
    rw [hb]
    refine ⟨h1, ?_, ?_, ?_, ?_, ?_⟩
    · intro p hp
      obtain ⟨q, hq, hk⟩ := h2 p hp
      exact ⟨q, hq, (sameB_quarterly _ _).mpr hk⟩
    · intro q hq
      exact h3 q hq _ (fun z => sameB_quarterly z.1 q.1)
    · refine h4.imp ?_
      rintro p q ⟨hle, hne⟩
      rw [bucketLt_quarterly]
      unfold quarterLe at hle
      rw [Ne, Prod.mk.injEq] at hne
      omega
    · intro hsort q hq p hp hpq
      exact h5 hsort q hq _ (fun z => sameB_quarterly z.1 q.1) p hp hpq
    · rintro rfl
      simp [firstOccur]
  · have hb : sample_snapshots snaps "monthly"
        = List.insertionSort (fun a b => a.1.take 6 ≤ b.1.take 6)
            (firstOccur (fun p => p.1.take 6) snaps) := by
      simp [sample_snapshots]
    haveI : IsTotal (String × String) (fun a b => a.1.take 6 ≤ b.1.take 6) :=
      ⟨fun a b => le_total _ _⟩
    haveI : IsTrans (String × String) (fun a b => a.1.take 6 ≤ b.1.take 6) :=
      ⟨fun _ _ _ hab hbc => le_trans hab hbc⟩
    obtain ⟨h1, h2, h3, h4, h5⟩ :=
      sampler_branch_props (fun p => p.1.take 6) (fun a b => a.1.take 6 ≤ b.1.take 6) snaps
    rw [hb]
    refine ⟨h1, ?_, ?_, ?_, ?_, ?_⟩
    · intro p hp
      obtain ⟨q, hq, hk⟩ := h2 p hp
      exact ⟨q, hq, (sameB_monthly _ _).mpr hk⟩
    · intro q hq
      exact h3 q hq _ (fun z => sameB_monthly z.1 q.1)
    · exact h4.imp (fun hpq => (bucketLt_monthly _ _).mpr (lt_of_le_of_ne hpq.1 hpq.2))
    · intro hsort q hq p hp hpq
      exact h5 hsort q hq _ (fun z => sameB_monthly z.1 q.1) p hp hpq
    · rintro rfl
      simp [firstOccur]

/-- C4 fails as stated for unordered input: with the 2020 snapshots listed
out of order, yearly sampling returns the first-encountered entry
`20200202000000`, although `20200101000000` is in the same bucket and is
lexicographically (and numerically) smaller. -/
theorem claim_C4_counterexample :
    sample_snapshots [("20200202000000", "u1"), ("20200101000000", "u2")] "yearly"
      = [("20200202000000", "u1")] ∧
    sameBucketB "yearly" "20200101000000" "20200202000000" = true ∧
    natOfDigits "20200101000000".data < natOfDigits "20200202000000".data ∧
    "20200101000000".data < "20200202000000".data := by
  refine ⟨by decide, by decide, by decide, by decide⟩

theorem claim_C4_witness :
    (("yearly" : String) = "yearly" ∨ ("yearly" : String) = "quarterly"
        ∨ ("yearly" : String) = "monthly") ∧
    (∀ p ∈ [("20200105000000", "u"), ("20210909000000", "v")], tsWFb p.1 = true) ∧
    ((∀ q ∈ sample_snapshots [("20200105000000", "u"), ("20210909000000", "v")] "yearly",
        q ∈ [("20200105000000", "u"), ("20210909000000", "v")]) ∧
     (∀ p ∈ [("20200105000000", "u"), ("20210909000000", "v")],
        ∃ q ∈ sample_snapshots [("20200105000000", "u"), ("20210909000000", "v")] "yearly",
          sameBucketB "yearly" q.1 p.1 = true) ∧
     (∀ q ∈ sample_snapshots [("20200105000000", "u"), ("20210909000000", "v")] "yearly",
        List.find? (fun p => sameBucketB "yearly" p.1 q.1)
          [("20200105000000", "u"), ("20210909000000", "v")] = some q) ∧
     List.Pairwise (fun p q => bucketLtB "yearly" p.1 q.1 = true)
       (sample_snapshots [("20200105000000", "u"), ("20210909000000", "v")] "yearly") ∧
     (((["20200105000000", "20210909000000"] :
          List String).Sorted (· ≤ ·)) →
        ∀ q ∈ sample_snapshots [("20200105000000", "u"), ("20210909000000", "v")] "yearly",
          ∀ p ∈ [("20200105000000", "u"), ("20210909000000", "v")],
            sameBucketB "yearly" p.1 q.1 = true → q.1 ≤ p.1) ∧
     (([("20200105000000", "u"), ("20210909000000", "v")] :
          List (String × String)) = [] →
        sample_snapshots [("20200105000000", "u"), ("20210909000000", "v")] "yearly" = [])) :=
  ⟨Or.inl rfl, by decide,
    claim_C4_sampler [("20200105000000", "u"), ("20210909000000", "v")] "yearly"
      (Or.inl rfl) (by decide)⟩

theorem roll3_length : ∀ (w xs : List ℚ), (roll3 w xs).length = xs.length
  | _, [] => rfl
  | w, x :: xs => by
    rw [roll3]
    simp [roll3_length _ xs]

theorem lastUpTo3_drop (l : List ℚ) (d : ℕ) (h : 3 ≤ l.length - d) :
    lastUpTo3 (l.drop d) = lastUpTo3 l := by
  unfold lastUpTo3
  rw [List.length_drop, List.drop_drop]
  congr 1
  omega

theorem lastUpTo3_drop_front (W X : List ℚ) (hX : 1 ≤ X.length) :
    lastUpTo3 (W.drop (W.length - 2) ++ X) = lastUpTo3 (W ++ X) := by
  rcases le_or_lt W.length 2 with hw | hw
  · rw [show W.length - 2 = 0 by omega, List.drop_zero]
  · have h1 : (W ++ X).drop (W.length - 2) = W.drop (W.length - 2) ++ X := by
      rw [List.drop_append_eq_append_drop,
        show W.length - 2 - W.length = 0 by omega, List.drop_zero]
    rw [← h1]
    exact lastUpTo3_drop _ _ (by rw [List.length_append]; omega)

theorem roll3_get : ∀ (xs w : List ℚ), w.length ≤ 2 →
    ∀ (i : ℕ) (h : i < (roll3 w xs).length),
      (roll3 w xs).get ⟨i, h⟩
        = listMean (lastUpTo3 ((w ++ xs).take (w.length + i + 1)))
  | [], w, hw, i, h => by
    rw [roll3] at h
    exact absurd h (by simp)
  | x :: xs, w, hw, 0, h => by
    simp only [roll3, List.get]
    have h1 : (w ++ x :: xs).take (w.length + 0 + 1) = w ++ [x] := by
      rw [show w ++ x :: xs = (w ++ [x]) ++ xs by simp,
        List.take_append_eq_append_take,
        List.take_of_length_le (by simp)]
      simp
    rw [h1]
    have h2 : lastUpTo3 (w ++ [x]) = w ++ [x] := by
      unfold lastUpTo3
      rw [show (w ++ [x]).length - 3 = 0 by
          simp only [List.length_append, List.length_singleton]; omega,
        List.drop_zero]
    rw [h2]
  | x :: xs, w, hw, i + 1, h => by
    have hlen : i < (roll3 ((w ++ [x]).drop ((w ++ [x]).length - 2)) xs).length := by
      rw [roll3_length] at h ⊢
      simpa using h
    have hxs : i + 1 ≤ xs.length := by
      rw [roll3_length] at hlen
      omega
    have hw' : ((w ++ [x]).drop ((w ++ [x]).length - 2)).length ≤ 2 := by
      rw [List.length_drop]
      omega
    have step : (roll3 w (x :: xs)).get ⟨i + 1, h⟩
        = (roll3 ((w ++ [x]).drop ((w ++ [x]).length - 2)) xs).get ⟨i, hlen⟩ := by
      simp only [roll3]
      rfl
    rw [step, roll3_get xs _ hw' i hlen]
    congr 1
    have hY : (((w ++ [x]).drop ((w ++ [x]).length - 2)) ++ xs).take
          (((w ++ [x]).drop ((w ++ [x]).length - 2)).length + i + 1)
        = ((w ++ [x]).drop ((w ++ [x]).length - 2)) ++ xs.take (i + 1) := by
      rw [List.take_append_eq_append_take, List.take_of_length_le (by omega)]
      congr 2
      omega
    have hX : (w ++ x :: xs).take (w.length + (i + 1) + 1)
        = (w ++ [x]) ++ xs.take (i + 1) := by
      rw [show w ++ x :: xs = (w ++ [x]) ++ xs by simp,
        List.take_append_eq_append_take,
        List.take_of_length_le (by
          simp only [List.length_append, List.length_singleton]; omega),
        show w.length + (i + 1) + 1 - (w ++ [x]).length = i + 1 by
          simp only [List.length_append, List.length_singleton]; omega]
    rw [hY, hX]
    exact lastUpTo3_drop_front (w ++ [x]) (xs.take (i + 1))
      (by rw [List.length_take]; omega)

/-- C3 (amended): the 3-window trailing rolling mean of the magnitude score
is computed over the **whole** significant-change subset in one global
chronological order — mixing the records of different slugs — each value
being the mean of the up-to-3 most recent significant changes across all
slugs. -/
theorem claim_C3_rolling_global (thr : ℚ) (diffs : List DiffRec) :
    magnitudeRolling thr diffs
      = (sortedChanges thr diffs).zip
          (rolling3 ((sortedChanges thr diffs).map (fun d => d.metrics.magnitude_score))) ∧
    (∀ (scores : List ℚ) (i : ℕ) (h : i < (rolling3 scores).length),
        (rolling3 scores).get ⟨i, h⟩ = listMean (lastUpTo3 (scores.take (i + 1)))) := by
  refine ⟨rfl, ?_⟩
  intro scores i h
  have hg := roll3_get scores [] (by simp) i h
  simpa [rolling3] using hg

theorem claim_C3_witness :
    magnitudeRolling 1 [exD1, exD2]
      = (sortedChanges 1 [exD1, exD2]).zip
          (rolling3 ((sortedChanges 1 [exD1, exD2]).map (fun d => d.metrics.magnitude_score))) ∧
    (rolling3 [0, 1]).getD 1 0 = listMean (lastUpTo3 ([(0:ℚ), 1].take 2)) := by
  have h : 1 < (rolling3 [(0:ℚ), 1]).length := by
    rw [rolling3, roll3_length]
    norm_num
  refine ⟨(claim_C3_rolling_global 1 [exD1, exD2]).1, ?_⟩
  rw [List.getD_eq_getElem?_getD, List.getElem?_eq_getElem h]
  exact (claim_C3_rolling_global 1 []).2 [0, 1] 1 h

/-- C3 fails as stated: with two significant changes of different slugs
(`a` with magnitude 0 at the earlier date, `b` with magnitude 1 at the later
date), the code's rolling value for the second record is the cross-slug mean
`(0 + 1)/2 = 1/2`, while the claim's per-slug rolling value is `1`. -/
theorem claim_C3_counterexample :
    (magnitudeRolling 1 [exD1, exD2]).map Prod.snd
      ≠ (perSlugRolling 1 [exD1, exD2]).map Prod.snd := by
  have hfil : significantChanges 1 [exD1, exD2] = [exD1, exD2] := by
    unfold significantChanges exD1 exD2
    norm_num [List.filter]
  have hle : exD1.from_ts ≤ exD2.from_ts := by
    show ("20200101000000" : String) ≤ "20200102000000"
    rw [String.le_iff_toList_le]
    decide
  have hsort : sortedChanges 1 [exD1, exD2] = [exD1, exD2] := by
    unfold sortedChanges
    rw [hfil]
    refine List.Sorted.insertionSort_eq ?_
    rw [List.sorted_cons]
    refine ⟨?_, List.sorted_singleton _⟩
    intro b hb
    rw [List.mem_singleton] at hb
    subst hb
    exact hle
  have hscores : [exD1, exD2].map (fun d => d.metrics.magnitude_score) = [0, 1] := by
    simp [exD1, exD2]
  have hroll : rolling3 [0, 1] = [0, 1/2] := by
    norm_num [rolling3, roll3, listMean]
  have hL : (magnitudeRolling 1 [exD1, exD2]).map Prod.snd = [0, 1/2] := by
    unfold magnitudeRolling
    rw [hsort, hscores, hroll]
    simp
  have e1 : (("a" : String) == "b") = false := by decide
  have e2 : (("b" : String) == "b") = true := by decide
  have e3 : (("a" : String) == "a") = true := by decide
  have hR : (perSlugRolling 1 [exD1, exD2]).map Prod.snd = [0, 1] := by
    unfold perSlugRolling
    rw [hsort]
    norm_num [List.range_succ, lastUpTo3, listMean, exD1, exD2, List.filter, e1, e2, e3]
  rw [hL, hR]
  norm_num

end Wayback
